import Mathlib

/-
Verification of the AMM discovery and synchronization engine of `amms-rs`.

Shallow embedding notes.
* Addresses (H160) are modelled as `Nat`, the zero address as `0`.  Block
  heights (u64) and U256 values are `Nat`; none of the embedded operations
  perform wrapping arithmetic on them.
* RPC transport, ABI batch contracts, serde and the file system are external
  collaborators.  They are modelled by a `Chain` record of response functions
  (each fallible with an opaque `Nat` transport-error code) and by an `FS`
  map from paths to stored checkpoint values (serde round-trip fidelity is
  the external serializer's contract).
* Async tasks are pure values here: a spawned task is its final
  `RunResult` together with the list of RPC calls it issues; the orchestrator
  joins tasks in spawn order.  A panic inside a task surfaces at join as a
  `JoinError` (as `tokio::task::JoinSet::join_next` reports it), while a panic
  on the orchestrator itself is the `panic` outcome of the whole run.
* `src/amm/mod.rs`, `src/amm/factory.rs`, `src/amm/uniswap_v3/factory.rs` and
  the `batch_request` modules are not part of the given sources; the
  definitions that stand in for them are marked `Modelled from the spec:` and
  follow the specification's §3, §4.1 and §4.2 wording.
-/

abbrev Address := Nat

/-- Modelled from the spec: the `UniswapV2Pool` data record (`src/amm/uniswap_v2`
is not under `src/` except `factory.rs`); fields and defaults follow §3 and the
field uses in `src/src/sync/mod.rs` and `src/src/amm/uniswap_v2/factory.rs`. -/
structure UniswapV2Pool where
  address : Address := 0
  token_a : Address := 0
  token_a_decimals : Nat := 0
  token_b : Address := 0
  token_b_decimals : Nat := 0
  reserve_0 : Nat := 0
  reserve_1 : Nat := 0
  fee : Nat := 0
  deriving DecidableEq, Repr

/-- Modelled from the spec: the `UniswapV3Pool` data record (its source file is
not under `src/`).  The tick-bitmap and per-tick liquidity maps of §3 are
omitted: no embedded operation reads or writes them. -/
structure UniswapV3Pool where
  address : Address := 0
  token_a : Address := 0
  token_a_decimals : Nat := 0
  token_b : Address := 0
  token_b_decimals : Nat := 0
  fee : Nat := 0
  liquidity : Nat := 0
  sqrt_price : Nat := 0
  tick_spacing : Int := 0
  tick : Int := 0
  deriving DecidableEq, Repr

/-- Modelled from the spec: the `ERC4626Vault` data record (its source file is
not under `src/`); essential attributes per §3. -/
structure ERC4626Vault where
  vault_token : Address := 0
  asset_token : Address := 0
  decimals : Nat := 0
  total_supply : Nat := 0
  total_assets : Nat := 0
  fee : Nat := 0
  deriving DecidableEq, Repr

/-- Modelled from the spec: the tagged `AMM` variant type of §3 (declared in the
missing `src/amm/mod.rs`; the three variants appear in every `match` of
`src/src/sync/mod.rs` and `src/src/sync/checkpoint.rs`). -/
inductive AMM where
  | uniswapV2Pool : UniswapV2Pool → AMM
  | uniswapV3Pool : UniswapV3Pool → AMM
  | erc4626Vault : ERC4626Vault → AMM
  deriving DecidableEq, Repr

/-- `AMM::address()`: the pool's primary key (`vault_token` for vaults). -/
def AMM.address : AMM → Address
  | .uniswapV2Pool p => p.address
  | .uniswapV3Pool p => p.address
  | .erc4626Vault v => v.vault_token

/-- `std::mem::discriminant` on the `AMM` enum, as compared by
`amms_are_congruent`. -/
def discriminant : AMM → Nat
  | .uniswapV2Pool _ => 0
  | .uniswapV3Pool _ => 1
  | .erc4626Vault _ => 2

/-- `UniswapV2Factory` (src/src/amm/uniswap_v2/factory.rs, lines 44-49). -/
structure UniswapV2Factory where
  address : Address := 0
  creation_block : Nat := 0
  fee : Nat := 0
  deriving DecidableEq, Repr

/-- Modelled from the spec: `UniswapV3Factory` (its source file is not under
`src/`); fields per §3 and the `UniswapV3Factory::new(H160, u64)` call in
`src/src/sync/checkpoint.rs`. -/
structure UniswapV3Factory where
  address : Address := 0
  creation_block : Nat := 0
  deriving DecidableEq, Repr

/-- Modelled from the spec: the tagged `Factory` variant type of §3 (declared in
the missing `src/amm/factory.rs`; both variants appear in the `match` arms of
`src/src/sync/checkpoint.rs`). -/
inductive Factory where
  | uniswapV2Factory : UniswapV2Factory → Factory
  | uniswapV3Factory : UniswapV3Factory → Factory
  deriving DecidableEq, Repr

/-- `Factory::address()`. -/
def Factory.address : Factory → Address
  | .uniswapV2Factory f => f.address
  | .uniswapV3Factory f => f.address

/-- `CheckpointError` (src/src/errors.rs, lines 102-110). -/
inductive CheckpointError where
  | systemTimeError : CheckpointError
  | serdeJsonError : CheckpointError
  | ioError : CheckpointError
  deriving DecidableEq, Repr

/-- The constructors of `AMMError` (src/src/errors.rs) that the embedded
operations can produce.  All transport-level failures reaching the engine
through the middleware or a batch contract carry an opaque code. -/
inductive AMMError where
  | middlewareError : Nat → AMMError
  | joinError : AMMError
  | incongruentAMMs : AMMError
  | blockNumberNotFound : AMMError
  | checkpointError : CheckpointError → AMMError
  deriving DecidableEq, Repr

/-- Outcome of running a piece of the engine: a value, an `AMMError`, or a
Rust panic (out-of-bounds index, `todo!`). -/
inductive RunResult (α : Type) where
  | ok : α → RunResult α
  | err : AMMError → RunResult α
  | panic : RunResult α
  deriving DecidableEq, Repr

/-- Value-or-panic, for functions whose only failure mode is a panic. -/
inductive PanicOr (α : Type) where
  | panic : PanicOr α
  | ret : α → PanicOr α
  deriving DecidableEq, Repr

/-- One RPC issued against the chain, with the explicit block-height parameter
it carries (the uniswap-v2 discovery and hydration calls carry none and execute
at the provider's latest height). -/
inductive RpcCall where
  | getBlockNumber : RpcCall
  | allPairsLength : Address → RpcCall
  | getPairsBatch : Address → Nat → Nat → RpcCall
  | v2DataBatch : List Address → RpcCall
  | v3DataBatch : List Address → Nat → RpcCall
  | vaultPopulate : Address → Option Nat → RpcCall
  | getLogs : Address → Nat → Nat → RpcCall
  deriving DecidableEq, Repr

/-- The explicit snapshot-height parameter of a call, when the call has one. -/
def RpcCall.blockTag : RpcCall → Option Nat
  | .v3DataBatch _ b => some b
  | .vaultPopulate _ b => b
  | _ => none

/-- Discovery and hydration operations, as opposed to the height read itself. -/
def RpcCall.isDiscoveryOrHydration : RpcCall → Bool
  | .getBlockNumber => false
  | _ => true

/-- Per-pool state returned by the uniswap-v2 batch data contract.
Modelled from the spec: `get_amm_data_batch` "mutates pools in place with
their state"; the v2 batch carries no fee (§4.3: "pools do not encode fee
on-chain for that protocol family"). -/
structure V2PoolData where
  token_a : Address
  token_a_decimals : Nat
  token_b : Address
  token_b_decimals : Nat
  reserve_0 : Nat
  reserve_1 : Nat
  deriving DecidableEq, Repr

/-- Modelled from the spec: per-pool state returned by the uniswap-v3 batch
data contract, sampled at an explicit block height. -/
structure V3PoolData where
  token_a : Address
  token_a_decimals : Nat
  token_b : Address
  token_b_decimals : Nat
  fee : Nat
  liquidity : Nat
  sqrt_price : Nat
  tick_spacing : Int
  tick : Int
  deriving DecidableEq, Repr

/-- Modelled from the spec: per-vault state fetched by `populate_data`. -/
structure VaultData where
  asset_token : Address
  decimals : Nat
  total_supply : Nat
  total_assets : Nat
  fee : Nat
  deriving DecidableEq, Repr

/-- A decoded `PairCreated` event (uniswap-v2 family). -/
structure PairCreatedEvent where
  token0 : Address
  token1 : Address
  pair : Address
  deriving DecidableEq, Repr

/-- A decoded pool-created event of the uniswap-v3 family. -/
structure PoolCreatedEvent where
  token0 : Address
  token1 : Address
  fee : Nat
  pool : Address
  deriving DecidableEq, Repr

/-- The external chain/RPC collaborator: a response for every call the engine
can issue.  `Except Nat` failure is an opaque transport or contract error. -/
structure Chain where
  blockNumber : Except Nat Nat
  pairsLength : Address → Except Nat Nat
  pairsBatch : Address → Nat → Nat → Except Nat (List Address)
  v2Data : Address → Except Nat V2PoolData
  v3Data : Address → Nat → Except Nat V3PoolData
  vaultData : Address → Except Nat VaultData
  v2Logs : Address → Nat → Nat → Except Nat (List PairCreatedEvent)
  v3Logs : Address → Nat → Nat → Except Nat (List PoolCreatedEvent)

/-- A finished task of a `JoinSet`: its outcome and the RPC calls it issued. -/
abbrev TaskR := RunResult (List AMM) × List RpcCall

/-- `amms_are_congruent` (src/src/sync/mod.rs, lines 97-106): reads `amms[0]`
unconditionally (a panic on the empty slice), then compares every element's
discriminant with the first one's. -/
def amms_are_congruent : List AMM → PanicOr Bool
  | [] => .panic
  | a :: rest => .ret ((a :: rest).all fun x => discriminant x == discriminant a)

/-- `remove_empty_amms` (src/src/sync/mod.rs, lines 188-212): keep an AMM only
when both of its token addresses are nonzero. -/
def remove_empty_amms : List AMM → List AMM
  | [] => []
  | amm :: rest =>
    match amm with
    | .uniswapV2Pool p =>
      if p.token_a ≠ 0 ∧ p.token_b ≠ 0 then amm :: remove_empty_amms rest
      else remove_empty_amms rest
    | .uniswapV3Pool p =>
      if p.token_a ≠ 0 ∧ p.token_b ≠ 0 then amm :: remove_empty_amms rest
      else remove_empty_amms rest
    | .erc4626Vault v =>
      if v.vault_token ≠ 0 ∧ v.asset_token ≠ 0 then amm :: remove_empty_amms rest
      else remove_empty_amms rest

/-- Spec-side predicate (§3 non-degeneracy / §8): both token addresses of the
AMM — `token_a`/`token_b`, or `vault_token`/`asset_token` for vaults — are
nonzero. -/
def AMM.nondegenerate : AMM → Bool
  | .uniswapV2Pool p => p.token_a != 0 && p.token_b != 0
  | .uniswapV3Pool p => p.token_a != 0 && p.token_b != 0
  | .erc4626Vault v => v.vault_token != 0 && v.asset_token != 0

/-- `slice::chunks(n)` on a list, written with a length fuel so that it is
structurally recursive (n is always a positive literal at use; each step takes
`n` elements, so `l.length` steps always suffice). -/
def chunksOfAux (n : Nat) : Nat → List α → List (List α)
  | _, [] => []
  | 0, _ :: _ => []
  | fuel + 1, x :: xs => (x :: xs.take (n - 1)) :: chunksOfAux n fuel (xs.drop (n - 1))

/-- `slice::chunks(n)` on a list. -/
def chunksOf (n : Nat) (l : List α) : List (List α) := chunksOfAux n l.length l

/-- Apply the v2 batch response to a pool: the batched reader fills the token
and reserve fields in place, leaving address and fee untouched. -/
def UniswapV2Pool.applyData (p : UniswapV2Pool) (d : V2PoolData) : UniswapV2Pool :=
  { p with
    token_a := d.token_a, token_a_decimals := d.token_a_decimals,
    token_b := d.token_b, token_b_decimals := d.token_b_decimals,
    reserve_0 := d.reserve_0, reserve_1 := d.reserve_1 }

/-- Apply the v3 batch response to a pool (address untouched). -/
def UniswapV3Pool.applyData (p : UniswapV3Pool) (d : V3PoolData) : UniswapV3Pool :=
  { p with
    token_a := d.token_a, token_a_decimals := d.token_a_decimals,
    token_b := d.token_b, token_b_decimals := d.token_b_decimals,
    fee := d.fee, liquidity := d.liquidity, sqrt_price := d.sqrt_price,
    tick_spacing := d.tick_spacing, tick := d.tick }

/-- Apply the per-vault `populate_data` response (vault_token untouched). -/
def ERC4626Vault.applyData (v : ERC4626Vault) (d : VaultData) : ERC4626Vault :=
  { v with
    asset_token := d.asset_token, decimals := d.decimals,
    total_supply := d.total_supply, total_assets := d.total_assets,
    fee := d.fee }

/-- Hydrate one AMM through the uniswap-v2 batch contract (elements of other
variants are unreachable behind the congruence check and are left unchanged). -/
def hydrateAmmV2 (c : Chain) : AMM → Except Nat AMM
  | .uniswapV2Pool p => (c.v2Data p.address).map fun d => .uniswapV2Pool (p.applyData d)
  | a => .ok a

/-- Hydrate one AMM through the uniswap-v3 batch contract at `block_number`. -/
def hydrateAmmV3 (c : Chain) (block_number : Nat) : AMM → Except Nat AMM
  | .uniswapV3Pool p => (c.v3Data p.address block_number).map fun d => .uniswapV3Pool (p.applyData d)
  | a => .ok a

/-- One spawned chunk task of the `AMM::UniswapV2Pool` arm of `populate_amms`
(src/src/sync/mod.rs, lines 123-139): a single batched call (no block tag)
covering the chunk. -/
def v2ChunkTask (c : Chain) (chunk : List AMM) : TaskR :=
  (match chunk.mapM (hydrateAmmV2 c) with
   | .error e => .err (.middlewareError e)
   | .ok l => .ok l,
   [.v2DataBatch (chunk.map AMM.address)])

/-- One spawned chunk task of the `AMM::UniswapV3Pool` arm of `populate_amms`
(src/src/sync/mod.rs, lines 141-158): a single batched call pinned at
`block_number`. -/
def v3ChunkTask (c : Chain) (block_number : Nat) (chunk : List AMM) : TaskR :=
  (match chunk.mapM (hydrateAmmV3 c block_number) with
   | .error e => .err (.middlewareError e)
   | .ok l => .ok l,
   [.v3DataBatch (chunk.map AMM.address) block_number])

/-- One spawned per-vault task of the `AMM::ERC4626Vault` arm of
`populate_amms` (src/src/sync/mod.rs, lines 161-172): `populate_data(None, _)`
on a single vault. -/
def vaultTask (c : Chain) : AMM → TaskR
  | .erc4626Vault v =>
    (match c.vaultData v.vault_token with
     | .error e => .err (.middlewareError e)
     | .ok d => .ok [.erc4626Vault (v.applyData d)],
     [.vaultPopulate v.vault_token none])
  | a => (.ok [a], [])

/-- The tasks `populate_amms` spawns after the congruence check, dispatching on
the variant of `amms[0]`: v2 chunks of 127, v3 chunks of 76, vaults one by
one. -/
def populateTasks (c : Chain) (block_number : Nat) (amms : List AMM) : List TaskR :=
  match amms with
  | [] => []
  | a :: _ =>
    match a with
    | .uniswapV2Pool _ => (chunksOf 127 amms).map (v2ChunkTask c)
    | .uniswapV3Pool _ => (chunksOf 76 amms).map (v3ChunkTask c block_number)
    | .erc4626Vault _ => amms.map (vaultTask c)

/-- `join_next` through the double `?` of the callers: a task's panic surfaces
as a `JoinError`, a task's error propagates. -/
def joinTask : RunResult α → Except AMMError α
  | .ok a => .ok a
  | .err e => .error e
  | .panic => .error .joinError

/-- Drain a `JoinSet`, concatenating task outputs; the first failure (in spawn
order here; ordering is unspecified in the source) aborts the drain. -/
def joinTasks : List TaskR → Except AMMError (List AMM)
  | [] => .ok []
  | t :: ts => do
    let a ← joinTask t.1
    let rest ← joinTasks ts
    pure (a ++ rest)

/-- `populate_amms` (src/src/sync/mod.rs, lines 109-186).  Returns the outcome,
the RPC calls issued, and the number of batch tasks spawned.  The progress-bar
argument of the source is dropped (UI only). -/
def populate_amms (c : Chain) (block_number : Nat) (amms : List AMM) :
    RunResult (List AMM) × List RpcCall × Nat :=
  match amms_are_congruent amms with
  | .panic => (.panic, [], 0)
  | .ret false => (.err .incongruentAMMs, [], 0)
  | .ret true =>
    let tasks := populateTasks c block_number amms
    let trace := (tasks.map Prod.snd).flatten
    match joinTasks tasks with
    | .error e => (.err e, trace, tasks.length)
    | .ok updated => (.ok updated, trace, tasks.length)

/-- The slice-producing loop of `get_all_pairs_via_batched_calls`
(src/src/amm/uniswap_v2/factory.rs, lines 83-110), unrolled over its iteration
count: each pass records the current `(idx_from, idx_to)` request, then sets
`idx_from := idx_to` and clamps `idx_to` to `pairs_length - 1` once
`idx_to + 766 > pairs_length`. -/
def pairsLoopSlices (pairs_length : Nat) : Nat → Nat → Nat → List (Nat × Nat)
  | 0, _, _ => []
  | k + 1, idx_from, idx_to =>
    (idx_from, idx_to) ::
      pairsLoopSlices pairs_length k idx_to
        (if idx_to + 766 > pairs_length then pairs_length - 1 else idx_to + 766)

/-- The slices requested for a registry of length `pairs_length`: the loop of
src/src/amm/uniswap_v2/factory.rs runs `(0..pairs_length).step_by(766)`, i.e.
`⌈pairs_length / 766⌉` times, starting from `idx_from = 0` and
`idx_to = min 766 pairs_length`. -/
def getPairsSlices (pairs_length : Nat) : List (Nat × Nat) :=
  pairsLoopSlices pairs_length ((pairs_length + 765) / 766) 0
    (if 766 > pairs_length then pairs_length else 766)

/-- Modelled from the spec: `get_pairs_batch_request` (in the missing
`batch_request.rs`) reads the registry over the half-open slice
`[idx_from, idx_to)` (§4.1: "Partition `[0, N)` into half-open slices"). -/
def sliceIndices (s : Nat × Nat) : List Nat := List.range' s.1 (s.2 - s.1)

/-- All registry indices the batched enumeration requests, across its slices. -/
def requestedIndices (pairs_length : Nat) : List Nat :=
  ((getPairsSlices pairs_length).map sliceIndices).flatten

/-- Issue the `get_pairs_batch_request` of every slice and concatenate the
returned addresses, as `process_amm_from_requests` drains them
(src/src/amm/uniswap_v2/factory.rs, lines 119-134). -/
def collectPairAddresses (c : Chain) (factory : Address) :
    List (Nat × Nat) → Except Nat (List Address)
  | [] => .ok []
  | s :: rest => do
    let a ← c.pairsBatch factory s.1 s.2
    let b ← collectPairAddresses c factory rest
    pure (a ++ b)

/-- `process_amm_from_requests` turns each returned address into a
`UniswapV2Pool { address, ..Default::default() }`. -/
def emptyV2Amm (a : Address) : AMM := .uniswapV2Pool { address := a }

/-- `get_all_pairs_via_batched_calls` (src/src/amm/uniswap_v2/factory.rs,
lines 60-117): read the registry length, slice `[0, N)` with the clamped loop,
issue one batched read per slice, and return one empty AMM per returned
address.  No call carries a block-height parameter. -/
def get_all_pairs_via_batched_calls (c : Chain) (factory : Address) :
    RunResult (List AMM) × List RpcCall :=
  match c.pairsLength factory with
  | .error e => (.err (.middlewareError e), [.allPairsLength factory])
  | .ok pairs_length =>
    let slices := getPairsSlices pairs_length
    let trace := RpcCall.allPairsLength factory ::
      slices.map fun s => RpcCall.getPairsBatch factory s.1 s.2
    match collectPairAddresses c factory slices with
    | .error e => (.err (.middlewareError e), trace)
    | .ok addrs => (.ok (addrs.map emptyV2Amm), trace)

/-- Modelled from the spec: the block windows of the log-scan discovery
(§4.1 warm path): contiguous windows of width `step` covering
`[from_block, to_block]` (empty when `from_block > to_block`; a zero step is
treated as width 1 to keep the iteration well defined). -/
def logWindows (from_block to_block stp : Nat) : List (Nat × Nat) :=
  if from_block > to_block then []
  else
    (List.range ((to_block - from_block) / max stp 1 + 1)).map fun k =>
      let s := from_block + k * max stp 1
      (s, min (s + (max stp 1 - 1)) to_block)

/-- `new_empty_amm_from_log` for the v2 family (src/src/amm/uniswap_v2/
factory.rs, lines 159-172): address and tokens from the event, numeric state
zero. -/
def emptyV2FromLog (e : PairCreatedEvent) : AMM :=
  .uniswapV2Pool { address := e.pair, token_a := e.token0, token_b := e.token1 }

/-- Modelled from the spec: `new_empty_amm_from_log` for the v3 family
(§4.1: "populates the `token_a`, `token_b`, and `address` fields from the
event but leaves numeric state zero"). -/
def emptyV3FromLog (e : PoolCreatedEvent) : AMM :=
  .uniswapV3Pool { address := e.pool, token_a := e.token0, token_b := e.token1 }

/-- Fetch and decode the v2 logs of every window (decode failure of the
external decoder is a transport-level error here). -/
def collectV2Logs (c : Chain) (factory : Address) :
    List (Nat × Nat) → Except Nat (List AMM)
  | [] => .ok []
  | w :: rest => do
    let es ← c.v2Logs factory w.1 w.2
    let b ← collectV2Logs c factory rest
    pure (es.map emptyV2FromLog ++ b)

/-- Fetch and decode the v3 logs of every window. -/
def collectV3Logs (c : Chain) (factory : Address) :
    List (Nat × Nat) → Except Nat (List AMM)
  | [] => .ok []
  | w :: rest => do
    let es ← c.v3Logs factory w.1 w.2
    let b ← collectV3Logs c factory rest
    pure (es.map emptyV3FromLog ++ b)

/-- Modelled from the spec: `Factory::get_all_pools_from_logs` (declared in the
missing `src/amm/factory.rs`; called from src/src/sync/checkpoint.rs, lines
157-159): scan the factory's creation events over block windows of width
`step` and decode each into an empty AMM. -/
def get_all_pools_from_logs (c : Chain) (f : Factory)
    (from_block to_block stp : Nat) : RunResult (List AMM) × List RpcCall :=
  let ws := logWindows from_block to_block stp
  let trace := ws.map fun w => RpcCall.getLogs (Factory.address f) w.1 w.2
  match f with
  | .uniswapV2Factory f2 =>
    match collectV2Logs c f2.address ws with
    | .error e => (.err (.middlewareError e), trace)
    | .ok amms => (.ok amms, trace)
  | .uniswapV3Factory f3 =>
    match collectV3Logs c f3.address ws with
    | .error e => (.err (.middlewareError e), trace)
    | .ok amms => (.ok amms, trace)

/-- `Factory::get_all_amms`.  The v2 arm (src/src/amm/uniswap_v2/factory.rs,
lines 174-181) ignores `to_block` and `step` and enumerates the registry via
batched calls; the v3 arm is modelled from the spec (log scan from the
factory's creation block up to `to_block`). -/
def Factory.get_all_amms (c : Chain) (f : Factory) (to_block : Option Nat)
    (stp : Nat) : RunResult (List AMM) × List RpcCall :=
  match f with
  | .uniswapV2Factory f2 => get_all_pairs_via_batched_calls c f2.address
  | .uniswapV3Factory f3 =>
    match to_block with
    | none => (.err .blockNumberNotFound, [])
    | some tb => get_all_pools_from_logs c f f3.creation_block tb stp

/-- The fee-stamping step of `sync_amms` (src/src/sync/mod.rs, lines 62-69):
when the factory is a `UniswapV2Factory`, set `pool.fee` of every
`UniswapV2Pool` to the factory's declared fee. -/
def stampFee (fee : Nat) : AMM → AMM
  | .uniswapV2Pool p => .uniswapV2Pool { p with fee := fee }
  | a => a

/-- The per-factory task `sync_amms` spawns (src/src/sync/mod.rs, lines
45-72): discovery, hydration at `current_block`, pruning, then fee stamping
for v2 factories. -/
def factoryTask (c : Chain) (current_block stp : Nat) (f : Factory) : TaskR :=
  match Factory.get_all_amms c f (some current_block) stp with
  | (.ok amms, tr) =>
    match populate_amms c current_block amms with
    | (.ok populated, tr2, _) =>
      let cleaned := remove_empty_amms populated
      let final := match f with
        | .uniswapV2Factory f2 => cleaned.map (stampFee f2.fee)
        | _ => cleaned
      (.ok final, tr ++ tr2)
    | (.err e, tr2, _) => (.err e, tr ++ tr2)
    | (.panic, tr2, _) => (.panic, tr ++ tr2)
  | (.err e, tr) => (.err e, tr)
  | (.panic, tr) => (.panic, tr)

abbrev CheckpointPath := String

/-- `Checkpoint` (src/src/sync/checkpoint.rs, lines 26-48). -/
structure Checkpoint where
  timestamp : Nat
  block_number : Nat
  factories : List Factory
  amms : List AMM
  deriving DecidableEq, Repr

/-- The checkpoint file store: what `serde_json` + `std::fs` persist at each
path.  Modelled from the spec: serialization, the file system and system time
are external collaborators; a stored value stands for its JSON rendering. -/
abbrev FS := CheckpointPath → Option Checkpoint

/-- `construct_checkpoint` (src/src/sync/checkpoint.rs, lines 272-288): stamp
`timestamp := now`, build the record, write it at `checkpoint_path`
(overwriting, non-atomically, whatever was there). -/
def construct_checkpoint (factories : List Factory) (amms : List AMM)
    (latest_block : Nat) (checkpoint_path : CheckpointPath) (now : Nat) (fs : FS) : FS :=
  fun q =>
    if q = checkpoint_path then
      some { timestamp := now, block_number := latest_block,
             factories := factories, amms := amms }
    else fs q

/-- `deconstruct_checkpoint` (src/src/sync/checkpoint.rs, lines 291-294): read
and deserialize the checkpoint, return its AMM list and block number as
stored. -/
def deconstruct_checkpoint (checkpoint_path : CheckpointPath) (fs : FS) :
    Except CheckpointError (List AMM × Nat) :=
  match fs checkpoint_path with
  | none => .error .ioError
  | some cp => .ok (cp.amms, cp.block_number)

/-- Outcome of an orchestrator entry point: its result, the RPC calls issued
across the run (spawn order), and the final file store. -/
structure SyncOut (α : Type) where
  result : RunResult α
  trace : List RpcCall
  fs : FS

/-- `sync_amms` (src/src/sync/mod.rs, lines 17-95): read the height once, spawn
one task per factory, join them (`amm??`), then — only on success — write a
checkpoint when a path is provided and return `(aggregated_amms,
current_block)`. -/
def sync_amms (c : Chain) (factories : List Factory)
    (checkpoint_path : Option CheckpointPath) (stp now : Nat) (fs : FS) :
    SyncOut (List AMM × Nat) :=
  match c.blockNumber with
  | .error e => ⟨.err (.middlewareError e), [.getBlockNumber], fs⟩
  | .ok current_block =>
    let tasks := factories.map (factoryTask c current_block stp)
    let trace := RpcCall.getBlockNumber :: (tasks.map Prod.snd).flatten
    match joinTasks tasks with
    | .error e => ⟨.err e, trace, fs⟩
    | .ok aggregated =>
      match checkpoint_path with
      | some p =>
        ⟨.ok (aggregated, current_block), trace,
         construct_checkpoint factories aggregated current_block p now fs⟩
      | none => ⟨.ok (aggregated, current_block), trace, fs⟩

/-- `sort_amms` (src/src/sync/checkpoint.rs, lines 223-236): partition a
checkpoint's AMMs by variant, preserving order. -/
def sort_amms : List AMM → List AMM × List AMM × List AMM
  | [] => ([], [], [])
  | amm :: rest =>
    let s := sort_amms rest
    match amm with
    | .uniswapV2Pool _ => (amm :: s.1, s.2.1, s.2.2)
    | .uniswapV3Pool _ => (s.1, amm :: s.2.1, s.2.2)
    | .erc4626Vault _ => (s.1, s.2.1, amm :: s.2.2)

/-- One spawned chunk task of `batch_sync_amms_from_checkpoint`
(src/src/sync/checkpoint.rs, lines 200-213): re-hydrate the chunk at
`block_number`, then prune. -/
def checkpointChunkTask (c : Chain) (block_number : Nat) (chunk : List AMM) : TaskR :=
  match populate_amms c block_number chunk with
  | (.ok l, tr, _) => (.ok (remove_empty_amms l), tr)
  | (.err e, tr, _) => (.err e, tr)
  | (.panic, tr, _) => (.panic, tr)

/-- `batch_sync_amms_from_checkpoint` (src/src/sync/checkpoint.rs, lines
176-221): reads `amms[0]` unconditionally (panic on empty); a vault head spawns
nothing (`factory = None`); otherwise congruence is required and one task is
spawned per chunk of 50000. -/
def batch_sync_amms_from_checkpoint (c : Chain) (amms : List AMM)
    (block_number : Nat) : PanicOr (Except AMMError (List TaskR)) :=
  match amms with
  | [] => .panic
  | a :: rest =>
    match a with
    | .erc4626Vault _ => .ret (.ok [])
    | _ =>
      match amms_are_congruent (a :: rest) with
      | .panic => .panic
      | .ret true =>
        .ret (.ok ((chunksOf 50000 (a :: rest)).map (checkpointChunkTask c block_number)))
      | .ret false => .ret (.error .incongruentAMMs)

/-- The sequential chunk loop of `populate_amm_data`
(src/src/amm/uniswap_v2/factory.rs, lines 189-193): issue each chunk's batched
call in order, aborting at the first failure. -/
def joinChunks : List TaskR → Except AMMError (List AMM) × List RpcCall
  | [] => (.ok [], [])
  | t :: ts =>
    match joinTask t.1 with
    | .error e => (.error e, t.2)
    | .ok l =>
      match joinChunks ts with
      | (.error e, tr) => (.error e, t.2 ++ tr)
      | (.ok rest, tr) => (.ok (l ++ rest), t.2 ++ tr)

/-- One spawned task of `get_new_amms_from_range` (src/src/sync/checkpoint.rs,
lines 146-171): log-scan discovery over `(from_block, to_block]`, hydration via
`populate_amm_data` at `Some(to_block)`, then pruning.  The v2
`populate_amm_data` (src/src/amm/uniswap_v2/factory.rs, lines 183-194) chunks
by 127 and ignores the block; the v3 one is modelled from the spec (chunks of
76, pinned at the block). -/
def newAmmsTask (c : Chain) (from_block to_block stp : Nat) (f : Factory) : TaskR :=
  match get_all_pools_from_logs c f from_block to_block stp with
  | (.ok amms, tr) =>
    let hydrated : Except AMMError (List AMM) × List RpcCall :=
      match f with
      | .uniswapV2Factory _ => joinChunks ((chunksOf 127 amms).map (v2ChunkTask c))
      | .uniswapV3Factory _ => joinChunks ((chunksOf 76 amms).map (v3ChunkTask c to_block))
    match hydrated with
    | (.error e, tr2) => (.err e, tr ++ tr2)
    | (.ok populated, tr2) => (.ok (remove_empty_amms populated), tr ++ tr2)
  | (.err e, tr) => (.err e, tr)
  | (.panic, tr) => (.panic, tr)

/-- `sync_amms_from_checkpoint` (src/src/sync/checkpoint.rs, lines 51-134):
read the height, deserialize the checkpoint, partition by variant, spawn the
re-hydration tasks for the nonempty v2 and v3 partitions, `todo!` (panic) when
vault entries are present, spawn the log-scan tasks over
`(checkpoint.block_number, current_block]`, join everything, write a fresh
checkpoint and return `(factories, aggregated_amms)`. -/
def sync_amms_from_checkpoint (c : Chain) (path_to_checkpoint : CheckpointPath)
    (stp now : Nat) (fs : FS) : SyncOut (List Factory × List AMM) :=
  match c.blockNumber with
  | .error e => ⟨.err (.middlewareError e), [.getBlockNumber], fs⟩
  | .ok current_block =>
    match fs path_to_checkpoint with
    | none => ⟨.err (.checkpointError .ioError), [.getBlockNumber], fs⟩
    | some cp =>
      let s := sort_amms cp.amms
      let step1 : PanicOr (Except AMMError (List TaskR)) :=
        if s.1.isEmpty then .ret (.ok [])
        else batch_sync_amms_from_checkpoint c s.1 current_block
      match step1 with
      | .panic => ⟨.panic, [.getBlockNumber], fs⟩
      | .ret (.error e) => ⟨.err e, [.getBlockNumber], fs⟩
      | .ret (.ok tasks1) =>
        let step2 : PanicOr (Except AMMError (List TaskR)) :=
          if s.2.1.isEmpty then .ret (.ok [])
          else batch_sync_amms_from_checkpoint c s.2.1 current_block
        match step2 with
        | .panic => ⟨.panic, RpcCall.getBlockNumber :: (tasks1.map Prod.snd).flatten, fs⟩
        | .ret (.error e) =>
          ⟨.err e, RpcCall.getBlockNumber :: (tasks1.map Prod.snd).flatten, fs⟩
        | .ret (.ok tasks2) =>
          if s.2.2.isEmpty = false then
            ⟨.panic,
             RpcCall.getBlockNumber :: ((tasks1 ++ tasks2).map Prod.snd).flatten, fs⟩
          else
            let tasks3 := cp.factories.map
              (newAmmsTask c cp.block_number current_block stp)
            let alltasks := tasks1 ++ tasks2 ++ tasks3
            let trace := RpcCall.getBlockNumber :: (alltasks.map Prod.snd).flatten
            match joinTasks alltasks with
            | .error e => ⟨.err e, trace, fs⟩
            | .ok aggregated =>
              ⟨.ok (cp.factories, aggregated), trace,
               construct_checkpoint cp.factories aggregated current_block
                 path_to_checkpoint now fs⟩

/-! Helper lemmas about the embedded operations. -/

theorem remove_empty_amms_eq_filter (l : List AMM) :
    remove_empty_amms l = l.filter AMM.nondegenerate := by
  induction l with
  | nil => rfl
  | cons a rest ih =>
    cases a with
    | uniswapV2Pool p =>
      by_cases h : p.token_a ≠ 0 ∧ p.token_b ≠ 0
      · simp [remove_empty_amms, AMM.nondegenerate, List.filter_cons, if_pos h, ih, h.1, h.2]
      · rw [Decidable.not_and_iff_or_not] at h
        rcases h with h | h <;>
          simp_all [remove_empty_amms, AMM.nondegenerate, List.filter_cons, ih]
    | uniswapV3Pool p =>
      by_cases h : p.token_a ≠ 0 ∧ p.token_b ≠ 0
      · simp [remove_empty_amms, AMM.nondegenerate, List.filter_cons, if_pos h, ih, h.1, h.2]
      · rw [Decidable.not_and_iff_or_not] at h
        rcases h with h | h <;>
          simp_all [remove_empty_amms, AMM.nondegenerate, List.filter_cons, ih]
    | erc4626Vault v =>
      by_cases h : v.vault_token ≠ 0 ∧ v.asset_token ≠ 0
      · simp [remove_empty_amms, AMM.nondegenerate, List.filter_cons, if_pos h, ih, h.1, h.2]
      · rw [Decidable.not_and_iff_or_not] at h
        rcases h with h | h <;>
          simp_all [remove_empty_amms, AMM.nondegenerate, List.filter_cons, ih]

theorem mem_remove_empty_amms {a : AMM} {l : List AMM} :
    a ∈ remove_empty_amms l ↔ a ∈ l ∧ a.nondegenerate = true := by
  rw [remove_empty_amms_eq_filter, List.mem_filter]

theorem nondegenerate_stampFee (fee : Nat) (a : AMM) :
    (stampFee fee a).nondegenerate = a.nondegenerate := by
  cases a <;> rfl

theorem fee_of_mem_map_stampFee {fee : Nat} {l : List AMM} {p : UniswapV2Pool}
    (h : AMM.uniswapV2Pool p ∈ l.map (stampFee fee)) : p.fee = fee := by
  rw [List.mem_map] at h
  rcases h with ⟨x, _, hx⟩
  cases x with
  | uniswapV2Pool q => cases hx; rfl
  | uniswapV3Pool q => simp [stampFee] at hx
  | erc4626Vault q => simp [stampFee] at hx

theorem joinTasks_ok_mem {ts : List TaskR} {l : List AMM} {a : AMM}
    (h : joinTasks ts = .ok l) (ha : a ∈ l) :
    ∃ t ∈ ts, ∃ out, t.1 = .ok out ∧ a ∈ out := by
  induction ts generalizing l with
  | nil =>
    simp only [joinTasks] at h
    cases h; simp at ha
  | cons t ts ih =>
    simp only [joinTasks, bind, Except.bind] at h
    cases ht : joinTask t.1 with
    | error e => rw [ht] at h; cases h
    | ok out =>
      rw [ht] at h
      cases hrest : joinTasks ts with
      | error e => rw [hrest] at h; cases h
      | ok rest =>
        rw [hrest] at h
        simp only [pure, Except.pure] at h
        cases h
        have hout : t.1 = .ok out := by
          cases t1 : t.1 <;> simp [joinTask, t1] at ht <;> simp [ht]
        rcases List.mem_append.mp ha with hmem | hmem
        · exact ⟨t, List.mem_cons_self t ts, out, hout, hmem⟩
        · rcases ih hrest hmem with ⟨t', ht', out', h1, h2⟩
          exact ⟨t', List.mem_cons_of_mem t ht', out', h1, h2⟩

theorem joinTasks_ok_all {ts : List TaskR} {l : List AMM} {t : TaskR}
    (h : joinTasks ts = .ok l) (ht : t ∈ ts) :
    ∃ out, t.1 = .ok out ∧ ∀ a ∈ out, a ∈ l := by
  induction ts generalizing l with
  | nil => cases ht
  | cons t' ts ih =>
    simp only [joinTasks, bind, Except.bind] at h
    cases hj : joinTask t'.1 with
    | error e => rw [hj] at h; cases h
    | ok out =>
      rw [hj] at h
      cases hrest : joinTasks ts with
      | error e => rw [hrest] at h; cases h
      | ok rest =>
        rw [hrest] at h
        simp only [pure, Except.pure] at h
        cases h
        rcases List.mem_cons.mp ht with rfl | hmem
        · have hout : t.1 = .ok out := by
            cases t1 : t.1 <;> simp [joinTask, t1] at hj <;> simp [hj]
          exact ⟨out, hout, fun a ha => List.mem_append.mpr (Or.inl ha)⟩
        · rcases ih hrest hmem with ⟨out', h1, h2⟩
          exact ⟨out', h1, fun a ha => List.mem_append.mpr (Or.inr (h2 a ha))⟩

theorem joinTasks_err_of_mem {ts : List TaskR} {t : TaskR} {e : AMMError}
    (ht : t ∈ ts) (he : t.1 = .err e) : ∃ e', joinTasks ts = .error e' := by
  induction ts with
  | nil => cases ht
  | cons t' ts ih =>
    rcases List.mem_cons.mp ht with rfl | hmem
    · exact ⟨e, by simp [joinTasks, he, joinTask, bind, Except.bind]⟩
    · cases hj : joinTask t'.1 with
      | error e' => exact ⟨e', by simp [joinTasks, hj, bind, Except.bind]⟩
      | ok out =>
        rcases ih hmem with ⟨e', he'⟩
        exact ⟨e', by simp [joinTasks, hj, he', bind, Except.bind]⟩

/-- The addresses a finished task contributes to the aggregate. -/
def taskAddrs (t : TaskR) : List Address :=
  match t.1 with
  | .ok out => out.map AMM.address
  | _ => []

theorem joinTasks_ok_addrs {ts : List TaskR} {l : List AMM}
    (h : joinTasks ts = .ok l) :
    l.map AMM.address = (ts.map taskAddrs).flatten := by
  induction ts generalizing l with
  | nil => simp only [joinTasks] at h; cases h; rfl
  | cons t ts ih =>
    simp only [joinTasks, bind, Except.bind] at h
    cases hj : joinTask t.1 with
    | error e => rw [hj] at h; cases h
    | ok out =>
      rw [hj] at h
      cases hrest : joinTasks ts with
      | error e => rw [hrest] at h; cases h
      | ok rest =>
        rw [hrest] at h
        simp only [pure, Except.pure] at h
        cases h
        have hout : t.1 = .ok out := by
          cases t1 : t.1 <;> simp [joinTask, t1] at hj <;> simp [hj]
        simp [taskAddrs, hout, ih hrest]

theorem amms_are_congruent_ret_true {amms : List AMM}
    (hne : amms ≠ [])
    (h : ∀ x ∈ amms, ∀ y ∈ amms, discriminant x = discriminant y) :
    amms_are_congruent amms = .ret true := by
  cases amms with
  | nil => exact absurd rfl hne
  | cons a rest =>
    simp only [amms_are_congruent, PanicOr.ret.injEq]
    rw [List.all_eq_true]
    intro x hx
    exact beq_iff_eq.mpr (h x hx a (List.mem_cons_self a rest))

theorem amms_are_congruent_ret_false {amms : List AMM} {x y : AMM}
    (hx : x ∈ amms) (hy : y ∈ amms)
    (hxy : discriminant x ≠ discriminant y) :
    amms_are_congruent amms = .ret false := by
  cases amms with
  | nil => cases hx
  | cons a rest =>
    simp only [amms_are_congruent, PanicOr.ret.injEq]
    cases hall : (a :: rest).all fun z => discriminant z == discriminant a with
    | false => rfl
    | true =>
      rw [List.all_eq_true] at hall
      exact absurd ((beq_iff_eq.mp (hall x hx)).trans
        (beq_iff_eq.mp (hall y hy)).symm) hxy

theorem populateTasks_shape {c : Chain} {b : Nat} {amms : List AMM} {t : TaskR}
    (ht : t ∈ populateTasks c b amms) :
    t.1 ≠ .panic ∧ ∀ e, t.1 = .err e → ∃ n, e = .middlewareError n := by
  cases amms with
  | nil => cases ht
  | cons a rest =>
    cases a with
    | uniswapV2Pool p =>
      simp only [populateTasks, List.mem_map] at ht
      rcases ht with ⟨chunk, _, rfl⟩
      unfold v2ChunkTask
      cases hm : chunk.mapM (hydrateAmmV2 c) <;> simp [hm]
    | uniswapV3Pool p =>
      simp only [populateTasks, List.mem_map] at ht
      rcases ht with ⟨chunk, _, rfl⟩
      unfold v3ChunkTask
      cases hm : chunk.mapM (hydrateAmmV3 c b) <;> simp [hm]
    | erc4626Vault v =>
      simp only [populateTasks, List.mem_map] at ht
      rcases ht with ⟨amm, _, rfl⟩
      cases amm with
      | erc4626Vault w =>
        unfold vaultTask
        cases hm : c.vaultData w.vault_token <;> simp [hm]
      | uniswapV2Pool q => simp [vaultTask]
      | uniswapV3Pool q => simp [vaultTask]

theorem joinTasks_error_shape {ts : List TaskR} {e : AMMError}
    (hts : ∀ t ∈ ts, t.1 ≠ .panic ∧ ∀ e', t.1 = .err e' → ∃ n, e' = .middlewareError n)
    (h : joinTasks ts = .error e) :
    ∃ n, e = .middlewareError n := by
  induction ts with
  | nil => simp [joinTasks] at h
  | cons t ts ih =>
    rcases hts t (List.mem_cons_self t ts) with ⟨hp, he⟩
    cases t1 : t.1 with
    | panic => exact absurd t1 hp
    | err e' =>
      have : joinTask t.1 = .error e' := by rw [t1]; rfl
      simp only [joinTasks, bind, Except.bind, this] at h
      cases h
      exact he _ t1
    | ok out =>
      have hjt : joinTask t.1 = .ok out := by rw [t1]; rfl
      simp only [joinTasks, bind, Except.bind, hjt] at h
      cases hrest : joinTasks ts with
      | error e2 =>
        rw [hrest] at h
        cases h
        exact ih (fun t' ht' => hts t' (List.mem_cons_of_mem t ht')) hrest
      | ok rest =>
        rw [hrest] at h
        simp [pure, Except.pure] at h

theorem factoryTask_ok_nondegenerate {c : Chain} {b stp : Nat} {f : Factory}
    {out : List AMM} {tr : List RpcCall}
    (h : factoryTask c b stp f = (.ok out, tr)) :
    ∀ a ∈ out, a.nondegenerate = true := by
  unfold factoryTask at h
  split at h
  case _ amms tr1 heq =>
    split at h
    case _ populated tr2 k hpop =>
      simp only [Prod.mk.injEq, RunResult.ok.injEq] at h
      rcases h with ⟨hout, -⟩
      subst hout
      intro a ha
      split at ha
      case _ f2 =>
        rcases List.mem_map.mp ha with ⟨x, hx, rfl⟩
        rw [nondegenerate_stampFee]
        exact (mem_remove_empty_amms.mp hx).2
      case _ hne => exact (mem_remove_empty_amms.mp ha).2
    case _ e tr2 k hpop => cases h
    case _ tr2 k hpop => cases h
  case _ e tr1 heq => cases h
  case _ tr1 heq => cases h

theorem factoryTask_v2_fee {c : Chain} {b stp : Nat} {f2 : UniswapV2Factory}
    {out : List AMM} {tr : List RpcCall}
    (h : factoryTask c b stp (.uniswapV2Factory f2) = (.ok out, tr)) :
    ∀ p : UniswapV2Pool, AMM.uniswapV2Pool p ∈ out → p.fee = f2.fee := by
  unfold factoryTask at h
  split at h
  case _ amms tr1 heq =>
    split at h
    case _ populated tr2 k hpop =>
      simp only [Prod.mk.injEq, RunResult.ok.injEq] at h
      rcases h with ⟨hout, -⟩
      subst hout
      intro p hp
      exact fee_of_mem_map_stampFee hp
    case _ e tr2 k hpop => cases h
    case _ tr2 k hpop => cases h
  case _ e tr1 heq => cases h
  case _ tr1 heq => cases h

theorem get_all_pairs_trace_shape {c : Chain} {fa : Address} {call : RpcCall}
    (h : call ∈ (get_all_pairs_via_batched_calls c fa).2) :
    (∃ a, call = .allPairsLength a) ∨ ∃ a i j, call = .getPairsBatch a i j := by
  unfold get_all_pairs_via_batched_calls at h
  cases hl : c.pairsLength fa with
  | error e =>
    rw [hl] at h
    simp only [List.mem_singleton] at h
    exact Or.inl ⟨fa, h⟩
  | ok n =>
    rw [hl] at h
    dsimp only at h
    cases hc : collectPairAddresses c fa (getPairsSlices n) with
    | error e =>
      rw [hc] at h
      rcases List.mem_cons.mp h with rfl | hm
      · exact Or.inl ⟨fa, rfl⟩
      · rcases List.mem_map.mp hm with ⟨s, -, rfl⟩
        exact Or.inr ⟨fa, s.1, s.2, rfl⟩
    | ok addrs =>
      rw [hc] at h
      rcases List.mem_cons.mp h with rfl | hm
      · exact Or.inl ⟨fa, rfl⟩
      · rcases List.mem_map.mp hm with ⟨s, -, rfl⟩
        exact Or.inr ⟨fa, s.1, s.2, rfl⟩

theorem get_all_pools_from_logs_trace_shape {c : Chain} {f : Factory}
    {fb tb stp : Nat} {call : RpcCall}
    (h : call ∈ (get_all_pools_from_logs c f fb tb stp).2) :
    ∃ a i j, call = .getLogs a i j := by
  unfold get_all_pools_from_logs at h
  cases f with
  | uniswapV2Factory f2 =>
    dsimp only at h
    cases hc : collectV2Logs c f2.address (logWindows fb tb stp) with
    | error e =>
      rw [hc] at h
      rcases List.mem_map.mp h with ⟨w, -, rfl⟩
      exact ⟨_, w.1, w.2, rfl⟩
    | ok amms =>
      rw [hc] at h
      rcases List.mem_map.mp h with ⟨w, -, rfl⟩
      exact ⟨_, w.1, w.2, rfl⟩
  | uniswapV3Factory f3 =>
    dsimp only at h
    cases hc : collectV3Logs c f3.address (logWindows fb tb stp) with
    | error e =>
      rw [hc] at h
      rcases List.mem_map.mp h with ⟨w, -, rfl⟩
      exact ⟨_, w.1, w.2, rfl⟩
    | ok amms =>
      rw [hc] at h
      rcases List.mem_map.mp h with ⟨w, -, rfl⟩
      exact ⟨_, w.1, w.2, rfl⟩

theorem get_all_amms_trace_shape {c : Chain} {f : Factory} {tb : Option Nat}
    {stp : Nat} {call : RpcCall}
    (h : call ∈ (Factory.get_all_amms c f tb stp).2) :
    (∃ a, call = .allPairsLength a) ∨ (∃ a i j, call = .getPairsBatch a i j) ∨
      ∃ a i j, call = .getLogs a i j := by
  unfold Factory.get_all_amms at h
  cases f with
  | uniswapV2Factory f2 =>
    rcases get_all_pairs_trace_shape h with h1 | h1
    · exact Or.inl h1
    · exact Or.inr (Or.inl h1)
  | uniswapV3Factory f3 =>
    cases tb with
    | none => cases h
    | some t => exact Or.inr (Or.inr (get_all_pools_from_logs_trace_shape h))

theorem populate_amms_trace_shape {c : Chain} {b : Nat} {amms : List AMM}
    {call : RpcCall} (h : call ∈ (populate_amms c b amms).2.1) :
    (∃ l, call = .v2DataBatch l) ∨ (∃ l, call = .v3DataBatch l b) ∨
      ∃ a, call = .vaultPopulate a none := by
  unfold populate_amms at h
  cases hc : amms_are_congruent amms with
  | panic => rw [hc] at h; cases h
  | ret bb =>
    cases bb with
    | false => rw [hc] at h; cases h
    | true =>
      rw [hc] at h
      dsimp only at h
      have htr : call ∈ ((populateTasks c b amms).map Prod.snd).flatten := by
        cases hj : joinTasks (populateTasks c b amms) with
        | error e => rw [hj] at h; exact h
        | ok u => rw [hj] at h; exact h
      rw [List.mem_flatten] at htr
      rcases htr with ⟨tr, htr, hcall⟩
      rcases List.mem_map.mp htr with ⟨t, ht, rfl⟩
      cases amms with
      | nil => cases ht
      | cons a rest =>
        cases a with
        | uniswapV2Pool p =>
          simp only [populateTasks, List.mem_map] at ht
          rcases ht with ⟨chunk, -, rfl⟩
          unfold v2ChunkTask at hcall
          simp only [List.mem_singleton] at hcall
          exact Or.inl ⟨_, hcall⟩
        | uniswapV3Pool p =>
          simp only [populateTasks, List.mem_map] at ht
          rcases ht with ⟨chunk, -, rfl⟩
          unfold v3ChunkTask at hcall
          simp only [List.mem_singleton] at hcall
          exact Or.inr (Or.inl ⟨_, hcall⟩)
        | erc4626Vault v =>
          simp only [populateTasks, List.mem_map] at ht
          rcases ht with ⟨amm, -, rfl⟩
          cases amm with
          | erc4626Vault w =>
            unfold vaultTask at hcall
            simp only [List.mem_singleton] at hcall
            exact Or.inr (Or.inr ⟨_, hcall⟩)
          | uniswapV2Pool q => cases hcall
          | uniswapV3Pool q => cases hcall

theorem factoryTask_trace_calls {c : Chain} {b stp : Nat} {f : Factory}
    {call : RpcCall} (h : call ∈ (factoryTask c b stp f).2) :
    call ≠ .getBlockNumber ∧ ∀ l blk, call = .v3DataBatch l blk → blk = b := by
  have hdisc : call ∈ (Factory.get_all_amms c f (some b) stp).2 →
      call ≠ .getBlockNumber ∧ (∀ l blk, call = .v3DataBatch l blk → blk = b) := by
    intro hm
    rcases get_all_amms_trace_shape hm with ⟨a, rfl⟩ | ⟨a, i, j, rfl⟩ | ⟨a, i, j, rfl⟩ <;>
      exact ⟨by simp, by intro l blk hh; cases hh⟩
  have hpop : ∀ amms : List AMM, call ∈ (populate_amms c b amms).2.1 →
      call ≠ .getBlockNumber ∧ (∀ l blk, call = .v3DataBatch l blk → blk = b) := by
    intro amms hm
    rcases populate_amms_trace_shape hm with ⟨l, rfl⟩ | ⟨l, rfl⟩ | ⟨a, rfl⟩
    · exact ⟨by simp, by intro l' blk hh; cases hh⟩
    · exact ⟨by simp, by intro l' blk hh; cases hh; rfl⟩
    · exact ⟨by simp, by intro l' blk hh; cases hh⟩
  unfold factoryTask at h
  split at h
  case _ amms tr1 heq =>
    split at h
    case _ populated tr2 k hp =>
      dsimp only at h
      rcases List.mem_append.mp h with hm | hm
      · exact hdisc (by rw [heq]; exact hm)
      · exact hpop amms (by rw [hp]; exact hm)
    case _ e tr2 k hp =>
      dsimp only at h
      rcases List.mem_append.mp h with hm | hm
      · exact hdisc (by rw [heq]; exact hm)
      · exact hpop amms (by rw [hp]; exact hm)
    case _ tr2 k hp =>
      dsimp only at h
      rcases List.mem_append.mp h with hm | hm
      · exact hdisc (by rw [heq]; exact hm)
      · exact hpop amms (by rw [hp]; exact hm)
  case _ e tr1 heq =>
    exact hdisc (by rw [heq]; exact h)
  case _ tr1 heq =>
    exact hdisc (by rw [heq]; exact h)

theorem sort_amms_vault_mem {v : ERC4626Vault} {l : List AMM}
    (h : AMM.erc4626Vault v ∈ l) : AMM.erc4626Vault v ∈ (sort_amms l).2.2 := by
  induction l with
  | nil => cases h
  | cons a rest ih =>
    rcases List.mem_cons.mp h with rfl | hm
    · simp [sort_amms]
    · cases a with
      | uniswapV2Pool p => simpa [sort_amms] using ih hm
      | uniswapV3Pool p => simpa [sort_amms] using ih hm
      | erc4626Vault w =>
        simp only [sort_amms, List.mem_cons]
        exact Or.inr (ih hm)

theorem sort_amms_fst_disc {x : AMM} {l : List AMM}
    (h : x ∈ (sort_amms l).1) : discriminant x = 0 := by
  induction l with
  | nil => cases h
  | cons a rest ih =>
    cases a with
    | uniswapV2Pool p =>
      rcases List.mem_cons.mp (by simpa [sort_amms] using h) with rfl | hm
      · rfl
      · exact ih hm
    | uniswapV3Pool p => exact ih (by simpa [sort_amms] using h)
    | erc4626Vault v => exact ih (by simpa [sort_amms] using h)

theorem sort_amms_snd_fst_disc {x : AMM} {l : List AMM}
    (h : x ∈ (sort_amms l).2.1) : discriminant x = 1 := by
  induction l with
  | nil => cases h
  | cons a rest ih =>
    cases a with
    | uniswapV3Pool p =>
      rcases List.mem_cons.mp (by simpa [sort_amms] using h) with rfl | hm
      · rfl
      · exact ih hm
    | uniswapV2Pool p => exact ih (by simpa [sort_amms] using h)
    | erc4626Vault v => exact ih (by simpa [sort_amms] using h)

theorem batch_sync_ok_v2 {c : Chain} {amms : List AMM} {b : Nat}
    (hne : amms ≠ []) (hd : ∀ x ∈ amms, discriminant x = 0) :
    ∃ ts, batch_sync_amms_from_checkpoint c amms b = .ret (.ok ts) := by
  cases amms with
  | nil => exact absurd rfl hne
  | cons a rest =>
    have hcong : amms_are_congruent (a :: rest) = .ret true :=
      amms_are_congruent_ret_true (by simp) fun x hx y hy =>
        (hd x hx).trans (hd y hy).symm
    cases a with
    | uniswapV2Pool p =>
      exact ⟨(chunksOf 50000 (AMM.uniswapV2Pool p :: rest)).map (checkpointChunkTask c b),
        by simp [batch_sync_amms_from_checkpoint, hcong]⟩
    | uniswapV3Pool p =>
      have := hd _ (List.mem_cons_self _ rest)
      simp [discriminant] at this
    | erc4626Vault v =>
      have := hd _ (List.mem_cons_self _ rest)
      simp [discriminant] at this

theorem batch_sync_ok_v3 {c : Chain} {amms : List AMM} {b : Nat}
    (hne : amms ≠ []) (hd : ∀ x ∈ amms, discriminant x = 1) :
    ∃ ts, batch_sync_amms_from_checkpoint c amms b = .ret (.ok ts) := by
  cases amms with
  | nil => exact absurd rfl hne
  | cons a rest =>
    have hcong : amms_are_congruent (a :: rest) = .ret true :=
      amms_are_congruent_ret_true (by simp) fun x hx y hy =>
        (hd x hx).trans (hd y hy).symm
    cases a with
    | uniswapV3Pool p =>
      exact ⟨(chunksOf 50000 (AMM.uniswapV3Pool p :: rest)).map (checkpointChunkTask c b),
        by simp [batch_sync_amms_from_checkpoint, hcong]⟩
    | uniswapV2Pool p =>
      have := hd _ (List.mem_cons_self _ rest)
      simp [discriminant] at this
    | erc4626Vault v =>
      have := hd _ (List.mem_cons_self _ rest)
      simp [discriminant] at this

theorem sync_amms_ok_elim {c : Chain} {factories : List Factory}
    {cp : Option CheckpointPath} {stp now : Nat} {fs : FS}
    {amms : List AMM} {b : Nat}
    (h : (sync_amms c factories cp stp now fs).result = .ok (amms, b)) :
    c.blockNumber = .ok b ∧
    joinTasks (factories.map (factoryTask c b stp)) = .ok amms := by
  unfold sync_amms at h
  cases hbn : c.blockNumber with
  | error e => rw [hbn] at h; cases h
  | ok cb =>
    rw [hbn] at h
    dsimp only at h
    cases hj : joinTasks (factories.map (factoryTask c cb stp)) with
    | error e => rw [hj] at h; cases h
    | ok agg =>
      rw [hj] at h
      cases cp with
      | none =>
        dsimp only at h
        rcases RunResult.ok.inj h with ⟨rfl, rfl⟩
        exact ⟨rfl, hj⟩
      | some p =>
        dsimp only at h
        rcases RunResult.ok.inj h with ⟨rfl, rfl⟩
        exact ⟨rfl, hj⟩

theorem sync_amms_trace_eq {c : Chain} {factories : List Factory}
    {cp : Option CheckpointPath} {stp now : Nat} {fs : FS} {b : Nat}
    (hbn : c.blockNumber = .ok b) :
    (sync_amms c factories cp stp now fs).trace =
      RpcCall.getBlockNumber ::
        ((factories.map (factoryTask c b stp)).map Prod.snd).flatten := by
  unfold sync_amms
  rw [hbn]
  dsimp only
  cases hj : joinTasks (factories.map (factoryTask c b stp)) with
  | error e => rfl
  | ok agg => cases cp <;> rfl

theorem sync_amms_err_fs {c : Chain} {factories : List Factory}
    {cp : Option CheckpointPath} {stp now : Nat} {fs : FS} {b : Nat} {e : AMMError}
    (hbn : c.blockNumber = .ok b)
    (hj : joinTasks (factories.map (factoryTask c b stp)) = .error e) :
    (sync_amms c factories cp stp now fs).result = .err e ∧
    (sync_amms c factories cp stp now fs).fs = fs := by
  unfold sync_amms
  rw [hbn]
  dsimp only
  rw [hj]
  exact ⟨rfl, rfl⟩

/-! Concrete fixtures for counterexamples and witnesses. -/

/-- The empty file store. -/
def fs0 : FS := fun _ => none

/-- A healthy chain for witnesses: height 99, a one-pool v2 registry at every
factory, nonzero tokens everywhere, one v3 creation event per queried
window. -/
def exChain : Chain where
  blockNumber := .ok 99
  pairsLength := fun _ => .ok 1
  pairsBatch := fun _ a b => .ok ((List.range' a (b - a)).map fun i => i + 5)
  v2Data := fun _ => .ok ⟨1, 18, 2, 18, 1000, 2000⟩
  v3Data := fun _ _ => .ok ⟨1, 18, 2, 18, 3000, 10, 5, 60, 7⟩
  vaultData := fun _ => .ok ⟨9, 18, 100, 100, 0⟩
  v2Logs := fun _ _ _ => .ok []
  v3Logs := fun _ _ _ => .ok [⟨1, 2, 500, 5⟩]

/-- A chain whose constant-product registry reports 767 pools, with the
registry mapping index `i` to address `i` and every response healthy. -/
def chain767 : Chain where
  blockNumber := .ok 99
  pairsLength := fun _ => .ok 767
  pairsBatch := fun _ a b => .ok (List.range' a (b - a))
  v2Data := fun _ => .ok ⟨1, 18, 2, 18, 1000, 2000⟩
  v3Data := fun _ _ => .ok ⟨1, 18, 2, 18, 3000, 10, 5, 60, 7⟩
  vaultData := fun _ => .ok ⟨9, 18, 100, 100, 0⟩
  v2Logs := fun _ _ _ => .ok []
  v3Logs := fun _ _ _ => .ok []

/-- A one-element AMM list whose pool has the zero `token_a`: degenerate, so
`remove_empty_amms` prunes it. -/
def degenerateAmms : List AMM :=
  [.uniswapV2Pool { address := 5, token_a := 0, token_b := 7 }]

/-! The claims. -/

/-- C10: `amms_are_congruent` unconditionally reads element 0 of its input
slice, so it — and `populate_amms` and `batch_sync_amms_from_checkpoint`,
which also index `amms[0]` — panics on an empty input slice instead of
returning a value or an error; non-emptiness is a required precondition of the
hydrator's public API. -/
theorem c10_empty_slice_panics (c : Chain) (b : Nat) :
    amms_are_congruent [] = .panic ∧
    populate_amms c b [] = (.panic, [], 0) ∧
    batch_sync_amms_from_checkpoint c [] b = .panic :=
  ⟨rfl, rfl, rfl⟩

/-- C4 (amended): the checkpoint round-trip is exact — for all factories `f`,
AMM list `a`, block `b` and path `p`, `deconstruct_checkpoint` after
`construct_checkpoint(f, a, b, p)` returns `(a, b)` verbatim; the checkpoint
manager itself performs no pruning, so the claimed `(a_pruned, b)` holds only
when `a` already contains no degenerate pool. -/
theorem c4_checkpoint_roundtrip_exact (factories : List Factory)
    (amms : List AMM) (latest_block : Nat) (p : CheckpointPath) (now : Nat)
    (fs : FS) :
    deconstruct_checkpoint p
        (construct_checkpoint factories amms latest_block p now fs) =
      .ok (amms, latest_block) := by
  simp [deconstruct_checkpoint, construct_checkpoint]

/-- C4 counterexample: constructing a checkpoint from a list containing a
degenerate pool (zero `token_a`) and deconstructing it returns that pool
unpruned, so the round-trip result differs from the pruned list even as a set
of addresses: address 5 is present in the result but absent from the pruned
list. -/
theorem c4_roundtrip_does_not_prune :
    ∃ amms b,
      deconstruct_checkpoint "cp"
          (construct_checkpoint [] degenerateAmms 42 "cp" 0 fs0) =
        .ok (amms, b) ∧
      ¬ (∀ x : Address, x ∈ amms.map AMM.address ↔
          x ∈ (remove_empty_amms degenerateAmms).map AMM.address) := by
  refine ⟨degenerateAmms, 42, by simp [deconstruct_checkpoint, construct_checkpoint], fun hAll => ?_⟩
  have h5 : (5 : Address) ∈ degenerateAmms.map AMM.address := by decide
  have := (hAll 5).mp h5
  simp [remove_empty_amms, degenerateAmms] at this

set_option maxRecDepth 100000 in
/-- C1 (the code evaluated at the failing input): for a registry of length 767
the slicing loop of `get_all_pairs_via_batched_calls` produces the slices
`[0, 766)` and `[766, 766)`, so index 766 — the last registry entry — is never
requested and the returned catalog holds 766 empty AMMs, not 767; the claim's
"every pool index in `[0, N)` exactly once, for any N" fails at N = 767. -/
theorem c1_last_registry_index_skipped :
    getPairsSlices 767 = [(0, 766), (766, 766)] ∧
    requestedIndices 767 = List.range 766 ∧
    766 ∉ requestedIndices 767 ∧
    (get_all_pairs_via_batched_calls chain767 7).1 =
      .ok ((List.range 766).map emptyV2Amm) := by
  refine ⟨by decide, by decide, by decide, ?_⟩
  rfl

/-- C2: for every slice containing two elements of distinct variants, the
hydrator `populate_amms` returns the `IncongruentAMMs` error, issues no RPC
call and spawns no batch task; for a slice whose elements all share one
variant it never returns that error. -/
theorem c2_incongruent_rejection (c : Chain) (block_number : Nat)
    (amms : List AMM) :
    (∀ x y, x ∈ amms → y ∈ amms → discriminant x ≠ discriminant y →
      populate_amms c block_number amms = (.err .incongruentAMMs, [], 0)) ∧
    ((∀ x ∈ amms, ∀ y ∈ amms, discriminant x = discriminant y) →
      (populate_amms c block_number amms).1 ≠ .err .incongruentAMMs) := by
  constructor
  · intro x y hx hy hxy
    have hcong := amms_are_congruent_ret_false hx hy hxy
    simp [populate_amms, hcong]
  · intro hsame
    cases amms with
    | nil => simp [populate_amms, amms_are_congruent]
    | cons a rest =>
      have hcong : amms_are_congruent (a :: rest) = .ret true :=
        amms_are_congruent_ret_true (by simp) hsame
      unfold populate_amms
      rw [hcong]
      dsimp only
      cases hj : joinTasks (populateTasks c block_number (a :: rest)) with
      | error e =>
        rcases joinTasks_error_shape (fun t ht => populateTasks_shape ht) hj with ⟨n, rfl⟩
        simp
      | ok u => simp

/-- C2 witness: a mixed v2/v3 pair is rejected with `IncongruentAMMs` and an
empty call trace and task count, while a one-variant slice is not rejected
with that error. -/
theorem c2_incongruent_rejection_witness :
    populate_amms exChain 9 [.uniswapV2Pool {}, .uniswapV3Pool {}] =
      (.err .incongruentAMMs, [], 0) ∧
    (populate_amms exChain 9 [.uniswapV2Pool {}]).1 ≠ .err .incongruentAMMs := by
  constructor
  · exact (c2_incongruent_rejection exChain 9 [.uniswapV2Pool {}, .uniswapV3Pool {}]).1
      (.uniswapV2Pool {}) (.uniswapV3Pool {}) (by decide) (by decide) (by decide)
  · exact (c2_incongruent_rejection exChain 9 [.uniswapV2Pool {}]).2 (by decide)

/-- A one-pool constant-product factory used by witnesses. -/
def fV2 : Factory := .uniswapV2Factory { address := 7, creation_block := 1, fee := 300 }

/-- A concentrated-liquidity factory used by witnesses (its single log window
under `exChain` reports one pool created at address 5). -/
def fV3 : Factory := .uniswapV3Factory { address := 8, creation_block := 90 }

/-- A chain whose registry-length read fails with transport error 3. -/
def chainFail : Chain := { exChain with pairsLength := fun _ => .error 3 }

/-- C3: `remove_empty_amms` returns exactly the AMMs whose two token addresses
(`token_a`/`token_b`, or `vault_token`/`asset_token` for vaults) are both
nonzero, and consequently every pool in the result of a successful `sync_amms`
is nondegenerate. -/
theorem c3_remove_empty_and_sync_nondegenerate (l : List AMM) (c : Chain)
    (factories : List Factory) (cp : Option CheckpointPath) (stp now : Nat)
    (fs : FS) (amms : List AMM) (b : Nat) :
    remove_empty_amms l = l.filter AMM.nondegenerate ∧
    ((sync_amms c factories cp stp now fs).result = .ok (amms, b) →
      ∀ a ∈ amms, a.nondegenerate = true) := by
  refine ⟨remove_empty_amms_eq_filter l, fun hok a ha => ?_⟩
  obtain ⟨hbn, hj⟩ := sync_amms_ok_elim hok
  rcases joinTasks_ok_mem hj ha with ⟨t, ht, out, h1, h2⟩
  rcases List.mem_map.mp ht with ⟨f, hf, hft⟩
  rcases t with ⟨r, tr⟩
  dsimp only at h1
  subst h1
  exact factoryTask_ok_nondegenerate hft a h2

/-- C3 witness: a concrete successful sync returns only nondegenerate pools,
and `remove_empty_amms` on a degenerate singleton filters it away. -/
theorem c3_witness :
    remove_empty_amms degenerateAmms = degenerateAmms.filter AMM.nondegenerate ∧
    ∀ a ∈ [AMM.uniswapV2Pool ⟨5, 1, 18, 2, 18, 1000, 2000, 300⟩],
      a.nondegenerate = true := by
  have hok : (sync_amms exChain [fV2] none 10 0 fs0).result =
      .ok ([.uniswapV2Pool ⟨5, 1, 18, 2, 18, 1000, 2000, 300⟩], 99) := by rfl
  exact ⟨(c3_remove_empty_and_sync_nondegenerate degenerateAmms exChain [fV2]
      none 10 0 fs0 [.uniswapV2Pool ⟨5, 1, 18, 2, 18, 1000, 2000, 300⟩] 99).1,
    (c3_remove_empty_and_sync_nondegenerate degenerateAmms exChain [fV2]
      none 10 0 fs0 [.uniswapV2Pool ⟨5, 1, 18, 2, 18, 1000, 2000, 300⟩] 99).2 hok⟩

/-- C5: if any factory task inside `sync_amms` returns an error, `sync_amms`
returns an error and writes no checkpoint file, even when a checkpoint path is
provided: the caller never receives a partial result. -/
theorem c5_task_error_aborts_sync (c : Chain) (factories : List Factory)
    (cp : Option CheckpointPath) (stp now : Nat) (fs : FS) (f : Factory)
    (b : Nat) (e : AMMError)
    (hbn : c.blockNumber = .ok b) (hf : f ∈ factories)
    (he : (factoryTask c b stp f).1 = .err e) :
    (∃ e', (sync_amms c factories cp stp now fs).result = .err e') ∧
    (sync_amms c factories cp stp now fs).fs = fs := by
  have ht : factoryTask c b stp f ∈ factories.map (factoryTask c b stp) :=
    List.mem_map_of_mem _ hf
  rcases joinTasks_err_of_mem ht he with ⟨e', hj⟩
  obtain ⟨h1, h2⟩ := @sync_amms_err_fs c factories cp stp now fs b e' hbn hj
  exact ⟨⟨e', h1⟩, h2⟩

/-- C5 witness: with a checkpoint path supplied and a factory whose registry
read fails, the sync errors and the file store is untouched. -/
theorem c5_witness :
    (∃ e', (sync_amms chainFail [fV2] (some "cp") 10 0 fs0).result = .err e') ∧
    (sync_amms chainFail [fV2] (some "cp") 10 0 fs0).fs = fs0 :=
  c5_task_error_aborts_sync chainFail [fV2] (some "cp") 10 0 fs0 fV2 99
    (.middlewareError 3) rfl (by decide) (by decide)

/-- C7: after a successful `sync_amms`, every constant-product pool discovered
by a `UniswapV2Factory` task whose declared fee is `F` carries `fee = F`, and
that task's output is contained in the aggregate result. -/
theorem c7_factory_fee_stamped (c : Chain) (factories : List Factory)
    (cp : Option CheckpointPath) (stp now : Nat) (fs : FS)
    (amms : List AMM) (b : Nat) (f2 : UniswapV2Factory)
    (hf : Factory.uniswapV2Factory f2 ∈ factories)
    (hok : (sync_amms c factories cp stp now fs).result = .ok (amms, b)) :
    ∃ out, (factoryTask c b stp (.uniswapV2Factory f2)).1 = .ok out ∧
      (∀ a ∈ out, a ∈ amms) ∧
      ∀ p : UniswapV2Pool, AMM.uniswapV2Pool p ∈ out → p.fee = f2.fee := by
  obtain ⟨hbn, hj⟩ := sync_amms_ok_elim hok
  have ht : factoryTask c b stp (.uniswapV2Factory f2) ∈
      factories.map (factoryTask c b stp) := List.mem_map_of_mem _ hf
  rcases joinTasks_ok_all hj ht with ⟨out, h1, h2⟩
  refine ⟨out, h1, h2, ?_⟩
  rcases hEq : factoryTask c b stp (.uniswapV2Factory f2) with ⟨r, tr⟩
  rw [hEq] at h1
  dsimp only at h1
  subst h1
  exact factoryTask_v2_fee hEq

/-- C7 witness: the concrete factory `fV2` declares fee 300 and its pool comes
back stamped with 300 inside the aggregate result. -/
theorem c7_witness :
    ∃ out, (factoryTask exChain 99 10 fV2).1 = .ok out ∧
      (∀ a ∈ out, a ∈ [AMM.uniswapV2Pool ⟨5, 1, 18, 2, 18, 1000, 2000, 300⟩]) ∧
      ∀ p : UniswapV2Pool, AMM.uniswapV2Pool p ∈ out → p.fee = 300 := by
  have hok : (sync_amms exChain [fV2] none 10 0 fs0).result =
      .ok ([.uniswapV2Pool ⟨5, 1, 18, 2, 18, 1000, 2000, 300⟩], 99) := by rfl
  exact c7_factory_fee_stamped exChain [fV2] none 10 0 fs0
    [.uniswapV2Pool ⟨5, 1, 18, 2, 18, 1000, 2000, 300⟩] 99
    { address := 7, creation_block := 1, fee := 300 } (by decide) hok

/-- C9 (amended): the aggregate result of a successful `sync_amms` is the
plain concatenation of the per-factory task outputs — the orchestrator
deduplicates nothing — so any two distinct pools in it have distinct
addresses exactly when the addresses contributed across the factory tasks are
pairwise distinct (an assumption on the chain's registries and logs, not a
property the code enforces). -/
theorem c9_distinct_addresses_of_env (c : Chain) (factories : List Factory)
    (cp : Option CheckpointPath) (stp now : Nat) (fs : FS)
    (amms : List AMM) (b : Nat)
    (hok : (sync_amms c factories cp stp now fs).result = .ok (amms, b))
    (hnodup : ((factories.map (factoryTask c b stp)).map taskAddrs).flatten.Nodup) :
    amms.map AMM.address = ((factories.map (factoryTask c b stp)).map taskAddrs).flatten ∧
    (amms.map AMM.address).Nodup := by
  obtain ⟨hbn, hj⟩ := sync_amms_ok_elim hok
  have heq := joinTasks_ok_addrs hj
  exact ⟨heq, heq ▸ hnodup⟩

/-- C9 witness: a concrete two-factory sync where the task address lists are
disjoint, giving pairwise-distinct addresses in the result. -/
theorem c9_witness :
    ([.uniswapV2Pool ⟨5, 1, 18, 2, 18, 1000, 2000, 300⟩].map AMM.address =
      (([fV2].map (factoryTask exChain 99 10)).map taskAddrs).flatten) ∧
    ([AMM.uniswapV2Pool ⟨5, 1, 18, 2, 18, 1000, 2000, 300⟩].map AMM.address).Nodup := by
  have hok : (sync_amms exChain [fV2] none 10 0 fs0).result =
      .ok ([.uniswapV2Pool ⟨5, 1, 18, 2, 18, 1000, 2000, 300⟩], 99) := by rfl
  exact c9_distinct_addresses_of_env exChain [fV2] none 10 0 fs0
    [.uniswapV2Pool ⟨5, 1, 18, 2, 18, 1000, 2000, 300⟩] 99 hok (by decide)

/-- C9 counterexample: a successful sync over one constant-product and one
concentrated-liquidity factory that both report the pool address 5 returns two
distinct pools sharing one address — the claim fails because the orchestrator
performs no deduplication. -/
theorem c9_counterexample :
    ∃ (amms : List AMM) (p q : AMM),
      (sync_amms exChain [fV2, fV3] none 10 0 fs0).result = .ok (amms, 99) ∧
      p ∈ amms ∧ q ∈ amms ∧ p ≠ q ∧ AMM.address p = AMM.address q := by
  refine ⟨[.uniswapV2Pool ⟨5, 1, 18, 2, 18, 1000, 2000, 300⟩,
           .uniswapV3Pool ⟨5, 1, 18, 2, 18, 3000, 10, 5, 60, 7⟩],
    .uniswapV2Pool ⟨5, 1, 18, 2, 18, 1000, 2000, 300⟩,
    .uniswapV3Pool ⟨5, 1, 18, 2, 18, 3000, 10, 5, 60, 7⟩,
    by rfl, by decide, by decide, by decide, by decide⟩

/-- C6 (amended): during one `sync_amms` cycle the chain height is read
exactly once and returned as the second component; the uniswap-v3 batched
hydration calls are pinned at that height; but the constant-product discovery
and hydration calls (`allPairsLength`, `getPairsBatch`, `v2DataBatch`) carry
no block-height parameter at all — they execute at the provider's latest
height, not necessarily B*. -/
theorem c6_height_read_once_v3_pinned (c : Chain) (factories : List Factory)
    (cp : Option CheckpointPath) (stp now : Nat) (fs : FS)
    (amms : List AMM) (b : Nat)
    (hok : (sync_amms c factories cp stp now fs).result = .ok (amms, b)) :
    c.blockNumber = .ok b ∧
    (sync_amms c factories cp stp now fs).trace.count .getBlockNumber = 1 ∧
    (∀ call ∈ (sync_amms c factories cp stp now fs).trace,
      ∀ l blk, call = .v3DataBatch l blk → blk = b) ∧
    (∀ call ∈ (sync_amms c factories cp stp now fs).trace,
      ((∃ a, call = .allPairsLength a) ∨ (∃ a i j, call = .getPairsBatch a i j) ∨
        ∃ l, call = .v2DataBatch l) → call.blockTag = none) := by
  obtain ⟨hbn, hj⟩ := sync_amms_ok_elim hok
  have htr := @sync_amms_trace_eq c factories cp stp now fs b hbn
  have hmem : ∀ call ∈ ((factories.map (factoryTask c b stp)).map Prod.snd).flatten,
      call ≠ .getBlockNumber ∧ ∀ l blk, call = .v3DataBatch l blk → blk = b := by
    intro call hcall
    rw [List.mem_flatten] at hcall
    rcases hcall with ⟨tr, htr', hcall⟩
    rcases List.mem_map.mp htr' with ⟨t, ht, rfl⟩
    rcases List.mem_map.mp ht with ⟨f, -, rfl⟩
    exact factoryTask_trace_calls hcall
  refine ⟨hbn, ?_, ?_, ?_⟩
  · rw [htr, List.count_cons_self, List.count_eq_zero.mpr, Nat.zero_add]
    intro hmem'
    exact (hmem _ hmem').1 rfl
  · intro call hcall l blk hcb
    rw [htr] at hcall
    rcases List.mem_cons.mp hcall with rfl | hcall'
    · cases hcb
    · exact (hmem _ hcall').2 l blk hcb
  · intro call _ hshape
    rcases hshape with ⟨a, rfl⟩ | ⟨a, i, j, rfl⟩ | ⟨l, rfl⟩ <;> rfl

/-- C6 witness: a concrete successful one-factory sync exhibiting the single
height read, the returned height, and the untagged v2 calls. -/
theorem c6_witness :
    exChain.blockNumber = .ok 99 ∧
    (sync_amms exChain [fV2] none 10 0 fs0).trace.count .getBlockNumber = 1 ∧
    (∀ call ∈ (sync_amms exChain [fV2] none 10 0 fs0).trace,
      ∀ l blk, call = .v3DataBatch l blk → blk = 99) ∧
    (∀ call ∈ (sync_amms exChain [fV2] none 10 0 fs0).trace,
      ((∃ a, call = .allPairsLength a) ∨ (∃ a i j, call = .getPairsBatch a i j) ∨
        ∃ l, call = .v2DataBatch l) → call.blockTag = none) :=
  c6_height_read_once_v3_pinned exChain [fV2] none 10 0 fs0
    [.uniswapV2Pool ⟨5, 1, 18, 2, 18, 1000, 2000, 300⟩] 99 (by rfl)

/-- C6 counterexample: in a concrete successful cycle at height B* = 99, the
constant-product discovery call `getPairsBatch` appears in the trace with no
block-height parameter — it is a discovery operation that is not parameterized
by B*, against the claim that every discovery and hydration operation of the
cycle uses B* as its snapshot height. -/
theorem c6_counterexample :
    ∃ (amms : List AMM) (b : Nat),
      (sync_amms exChain [fV2] none 10 0 fs0).result = .ok (amms, b) ∧
      RpcCall.getPairsBatch 7 0 1 ∈ (sync_amms exChain [fV2] none 10 0 fs0).trace ∧
      (RpcCall.getPairsBatch 7 0 1).isDiscoveryOrHydration = true ∧
      (RpcCall.getPairsBatch 7 0 1).blockTag ≠ some b := by
  refine ⟨[.uniswapV2Pool ⟨5, 1, 18, 2, 18, 1000, 2000, 300⟩], 99,
    by rfl, ?_, rfl, by decide⟩
  have : (sync_amms exChain [fV2] none 10 0 fs0).trace =
      [.getBlockNumber, .allPairsLength 7, .getPairsBatch 7 0 1, .v2DataBatch [5]] := by rfl
  rw [this]
  decide

/-- C8: if the checkpoint deserialized by `sync_amms_from_checkpoint` contains
at least one vault-share (ERC4626) entry, the function panics (the source's
explicit `todo!`) before joining or returning anything: it never returns a
result that silently drops or miscounts those entries. -/
theorem c8_vault_checkpoint_panics (c : Chain) (p : CheckpointPath)
    (stp now : Nat) (fs : FS) (cp : Checkpoint) (b : Nat) (v : ERC4626Vault)
    (hbn : c.blockNumber = .ok b) (hfs : fs p = some cp)
    (hv : AMM.erc4626Vault v ∈ cp.amms) :
    (sync_amms_from_checkpoint c p stp now fs).result = .panic := by
  have hvs : (sort_amms cp.amms).2.2 ≠ [] :=
    fun h => by simpa [h] using sort_amms_vault_mem hv
  have hvsE : (sort_amms cp.amms).2.2.isEmpty = false := by
    cases hvv : (sort_amms cp.amms).2.2 with
    | nil => exact absurd hvv hvs
    | cons x xs => rfl
  unfold sync_amms_from_checkpoint
  rw [hbn]
  dsimp only
  rw [hfs]
  dsimp only
  by_cases h1 : (sort_amms cp.amms).1.isEmpty
  · rw [if_pos h1]
    dsimp only
    by_cases h2 : (sort_amms cp.amms).2.1.isEmpty
    · rw [if_pos h2]
      dsimp only
      rw [if_pos hvsE]
    · have hne2 : (sort_amms cp.amms).2.1 ≠ [] := by
        simpa [List.isEmpty_iff] using h2
      obtain ⟨ts2, hts2⟩ := batch_sync_ok_v3 (c := c) (b := b) hne2
        (fun x hx => sort_amms_snd_fst_disc hx)
      rw [if_neg h2, hts2]
      dsimp only
      rw [if_pos hvsE]
  · have hne1 : (sort_amms cp.amms).1 ≠ [] := by
      simpa [List.isEmpty_iff] using h1
    obtain ⟨ts1, hts1⟩ := batch_sync_ok_v2 (c := c) (b := b) hne1
      (fun x hx => sort_amms_fst_disc hx)
    rw [if_neg h1, hts1]
    dsimp only
    by_cases h2 : (sort_amms cp.amms).2.1.isEmpty
    · rw [if_pos h2]
      dsimp only
      rw [if_pos hvsE]
    · have hne2 : (sort_amms cp.amms).2.1 ≠ [] := by
        simpa [List.isEmpty_iff] using h2
      obtain ⟨ts2, hts2⟩ := batch_sync_ok_v3 (c := c) (b := b) hne2
        (fun x hx => sort_amms_snd_fst_disc hx)
      rw [if_neg h2, hts2]
      dsimp only
      rw [if_pos hvsE]

/-- A checkpoint holding one healthy v2 pool and one vault-share entry. -/
def cpVault : Checkpoint :=
  ⟨0, 50, [fV2], [.uniswapV2Pool ⟨5, 1, 0, 2, 0, 0, 0, 0⟩,
                  .erc4626Vault ⟨9, 3, 18, 100, 100, 0⟩]⟩

/-- A file store holding `cpVault` at path "cp". -/
def fsVault : FS := fun q => if q = "cp" then some cpVault else none

/-- C8 witness: resuming from a checkpoint that contains a vault entry
panics. -/
theorem c8_witness :
    (sync_amms_from_checkpoint exChain "cp" 10 0 fsVault).result = .panic :=
  c8_vault_checkpoint_panics exChain "cp" 10 0 fsVault cpVault 99
    ⟨9, 3, 18, 100, 100, 0⟩ rfl (by decide) (by decide)
